import Mathlib

/-!
Shallow embedding of the HTTP/1 client codec (`actix-http/src/h1/client.rs`),
the one-request service (`actix-http/src/h1/service.rs`) and the payload
extractors (`src/types/payload.rs`), with proofs of the specification claims.

The message decoder, payload decoder and message encoder live outside the
embedded sources; the codec is generic over their state types (`DEC`, `PD`,
`ENC`) and the codec operations take the collaborator's step result (or step
function) as an argument, exactly as the codec code itself only observes those
results.
-/

namespace Actix

/-- Byte strings are modelled as lists of byte values. -/
abbrev Bytes := List Nat

/-- `ConnectionType` from `actix-http/src/message.rs`: the resolved
post-message connection disposition. -/
inductive ConnectionType where
  | Close
  | KeepAlive
  | Upgrade
deriving DecidableEq, Repr

/-- The `Flags` bitflags of `h1/client.rs`, as named booleans:
`HEAD`, `KEEPALIVE_ENABLED`, `STREAM`. -/
structure Flags where
  head : Bool
  keepAliveEnabled : Bool
  stream : Bool
deriving DecidableEq, Repr

/-- `Flags::empty()`. -/
def Flags.empty : Flags := ⟨false, false, false⟩

/-- `http::Version`. -/
inductive Version where
  | HTTP09
  | HTTP10
  | HTTP11
  | HTTP2
  | HTTP3
deriving DecidableEq, Repr

/-- `http::Method`; only the distinction HEAD / not-HEAD matters to the codec. -/
inductive Method where
  | GET
  | HEAD
  | POST
  | PUT
  | DELETE
  | OTHER (s : String)
deriving DecidableEq, Repr

/-- `BodySize` from `actix-http/src/body.rs`: the declared outgoing body length. -/
inductive BodySize where
  | None
  | Empty
  | Sized (n : Nat)
  | Stream
deriving DecidableEq, Repr

/-- `ParseError` from `actix-http/src/error.rs` (constructors the embedded code uses). -/
inductive ParseError where
  | Incomplete
  | TooLarge
  | Header
  | Method
  | Status
  | Uri
deriving DecidableEq, Repr

/-- `PayloadError` from `actix-http/src/error.rs` (constructors the embedded code uses). -/
inductive PayloadError where
  | Incomplete
  | EncodingCorrupted
  | Overflow
  | UnknownLength
  | Io
deriving DecidableEq, Repr

/-- `Message<T>` from `h1/mod.rs`: head-events and body-events in one envelope. -/
inductive Message (α : Type) where
  | Item (a : α)
  | Chunk (c : Option Bytes)
deriving DecidableEq, Repr

/-- `PayloadItem` from `h1/decoder.rs`: one step of payload decoding. -/
inductive PayloadItem where
  | Chunk (b : Bytes)
  | Eof
deriving DecidableEq, Repr

/-- `PayloadType` from `h1/decoder.rs`, generic over the payload-decoder
state `PD` (the decoder itself is outside the embedded sources). -/
inductive PayloadType (PD : Type) where
  | None
  | Payload (pl : PD)
  | Stream (pl : PD)
deriving DecidableEq, Repr

/-- Result of running code that may hit a failed assertion / `unwrap` /
`unreachable!`: either a panic with its message, or a normal return. -/
inductive Panics (α : Type) where
  | panicked (msg : String)
  | ret (a : α)
deriving DecidableEq, Repr

/-- `ServiceConfig`, restricted to the one field the embedded code reads
(`config.keep_alive_enabled()`). -/
structure ServiceConfig where
  keep_alive_enabled : Bool
deriving DecidableEq, Repr

/-- `ResponseHead`: only the fields the client codec reads. `ctype` models
the result of `ResponseHead::ctype()`. -/
structure ResponseHead where
  status : Nat
  version : Version
  ctype : Option ConnectionType
deriving DecidableEq, Repr

/-- `RequestHeadType`, restricted to what `ClientCodec::encode` reads:
`as_ref().version`, `as_ref().method` and the result of
`as_ref().connection_type()` (stored here as the field `ctype`). -/
structure RequestHead where
  version : Version
  method : Method
  ctype : ConnectionType
deriving DecidableEq, Repr

/-- `ClientCodecInner` from `h1/client.rs`, generic over the states of the
message decoder (`DEC`), payload decoder (`PD`) and message encoder (`ENC`). -/
structure ClientCodecInner (DEC PD ENC : Type) where
  config : ServiceConfig
  decoder : DEC
  payload : Option PD
  version : Version
  ctype : ConnectionType
  flags : Flags
  encoder : ENC
deriving DecidableEq, Repr

/-- `ClientCodec`: HTTP/1 client message codec. -/
structure ClientCodec (DEC PD ENC : Type) where
  inner : ClientCodecInner DEC PD ENC
deriving DecidableEq, Repr

/-- `ClientPayloadCodec`: HTTP/1 client payload codec. -/
structure ClientPayloadCodec (DEC PD ENC : Type) where
  inner : ClientCodecInner DEC PD ENC
deriving DecidableEq, Repr

/-- `ClientCodec::new`: the initial decoder and encoder states stand for
`MessageDecoder::default()` / `MessageEncoder::default()`. -/
def ClientCodec.new {DEC PD ENC : Type} (config : ServiceConfig)
    (dec : DEC) (enc : ENC) : ClientCodec DEC PD ENC :=
  let flags :=
    if config.keep_alive_enabled then
      { Flags.empty with keepAliveEnabled := true }
    else
      Flags.empty
  { inner :=
      { config := config
        decoder := dec
        payload := none
        version := Version.HTTP11
        ctype := ConnectionType.Close
        flags := flags
        encoder := enc } }

/-- `ClientCodec::upgrade`. -/
def ClientCodec.upgrade {DEC PD ENC : Type} (c : ClientCodec DEC PD ENC) : Bool :=
  c.inner.ctype = ConnectionType.Upgrade

/-- `ClientCodec::keepalive`. -/
def ClientCodec.keepalive {DEC PD ENC : Type} (c : ClientCodec DEC PD ENC) : Bool :=
  c.inner.ctype = ConnectionType.KeepAlive

/-- `ClientCodec::into_payload_codec`. -/
def ClientCodec.into_payload_codec {DEC PD ENC : Type} (c : ClientCodec DEC PD ENC) :
    ClientPayloadCodec DEC PD ENC :=
  { inner := c.inner }

/-- `ClientPayloadCodec::keepalive`. -/
def ClientPayloadCodec.keepalive {DEC PD ENC : Type} (c : ClientPayloadCodec DEC PD ENC) : Bool :=
  c.inner.ctype = ConnectionType.KeepAlive

/-- `ClientPayloadCodec::into_message_codec`. -/
def ClientPayloadCodec.into_message_codec {DEC PD ENC : Type}
    (c : ClientPayloadCodec DEC PD ENC) : ClientCodec DEC PD ENC :=
  { inner := c.inner }

/-- `<ClientCodec as Decoder>::decode`. The inner message decoder is outside
the embedded sources, so its step result on the buffer,
`self.inner.decoder.decode(src)`, is taken as the argument `res`; the
`debug_assert!` is modelled as a panic. `reserve_readbuf` only manages buffer
capacity and is not modelled. -/
def ClientCodec.decode {DEC PD ENC : Type} (c : ClientCodec DEC PD ENC)
    (res : Except ParseError (Option (ResponseHead × PayloadType PD))) :
    Panics (Except ParseError (Option ResponseHead) × ClientCodec DEC PD ENC) :=
  if c.inner.payload.isSome then
    Panics.panicked "Payload decoder is set"
  else
    match res with
    | Except.error e => Panics.ret (Except.error e, c)
    | Except.ok none => Panics.ret (Except.ok none, c)
    | Except.ok (some (req, payload)) =>
      let i0 := c.inner
      -- do not use peer's keep-alive
      let i1 :=
        match req.ctype with
        | some ctype =>
          { i0 with
            ctype := if ctype = ConnectionType.KeepAlive then i0.ctype else ctype }
        | none => i0
      let i2 :=
        if i1.flags.head = false then
          match payload with
          | PayloadType.None => { i1 with payload := none }
          | PayloadType.Payload pl => { i1 with payload := some pl }
          | PayloadType.Stream pl =>
            { i1 with payload := some pl, flags := { i1.flags with stream := true } }
        else
          { i1 with payload := none }
      Panics.ret (Except.ok (some req), { inner := i2 })

/-- `<ClientPayloadCodec as Decoder>::decode`. The stored payload decoder's
step on the buffer, `payload.decode(src)`, is taken as the function `step`,
returning the decoder's new state together with its outcome; the
`debug_assert!` / `unwrap` on an absent decoder is modelled as a panic. -/
def ClientPayloadCodec.decode {DEC PD ENC : Type} (c : ClientPayloadCodec DEC PD ENC)
    (step : PD → PD × Except PayloadError (Option PayloadItem)) :
    Panics (Except PayloadError (Option (Option Bytes)) × ClientPayloadCodec DEC PD ENC) :=
  match c.inner.payload with
  | none => Panics.panicked "Payload decoder is not specified"
  | some pl =>
    let (pl2, out) := step pl
    match out with
    | Except.error e =>
      Panics.ret (Except.error e, { inner := { c.inner with payload := some pl2 } })
    | Except.ok (some (PayloadItem.Chunk chunk)) =>
      Panics.ret (Except.ok (some (some chunk)),
        { inner := { c.inner with payload := some pl2 } })
    | Except.ok (some PayloadItem.Eof) =>
      Panics.ret (Except.ok (some none), { inner := { c.inner with payload := none } })
    | Except.ok none =>
      Panics.ret (Except.ok none, { inner := { c.inner with payload := some pl2 } })

/-- The message encoder's operations (`MessageEncoder::encode`,
`encode_chunk`, `encode_eof`) are outside the embedded sources; an
`EncoderHooks` bundles their state transitions on the encoder state `ENC`
(output-buffer writes are not modelled). -/
structure EncoderHooks (ENC : Type) where
  encHead : ENC → RequestHead → BodySize → Version → ConnectionType → ServiceConfig →
    ENC × Except Unit Unit
  encChunk : ENC → Bytes → ENC × Except Unit Unit
  encEof : ENC → ENC × Except Unit Unit

/-- `<ClientCodec as Encoder>::encode`. Returns the updated codec together
with the propagated result of the inner encoder call. -/
def ClientCodec.encode {DEC PD ENC : Type} (c : ClientCodec DEC PD ENC)
    (hooks : EncoderHooks ENC) (item : Message (RequestHead × BodySize)) :
    ClientCodec DEC PD ENC × Except Unit Unit :=
  match item with
  | Message.Item (head, length) =>
    let i0 := c.inner
    let i1 := { i0 with version := head.version }
    let i2 := { i1 with flags := { i1.flags with head := head.method = Method.HEAD } }
    -- connection status
    let ctype :=
      match head.ctype with
      | ConnectionType.KeepAlive =>
        if i2.flags.keepAliveEnabled then ConnectionType.KeepAlive
        else ConnectionType.Close
      | ConnectionType.Upgrade => ConnectionType.Upgrade
      | ConnectionType.Close => ConnectionType.Close
    let i3 := { i2 with ctype := ctype }
    let (enc2, r) := hooks.encHead i3.encoder head length i3.version i3.ctype i3.config
    ({ inner := { i3 with encoder := enc2 } }, r)
  | Message.Chunk (some bytes) =>
    let (enc2, r) := hooks.encChunk c.inner.encoder bytes
    ({ inner := { c.inner with encoder := enc2 } }, r)
  | Message.Chunk none =>
    let (enc2, r) := hooks.encEof c.inner.encoder
    ({ inner := { c.inner with encoder := enc2 } }, r)

/-- Claim C1: encoding a `Message::Item((head, length))` resolves the codec's
connection type from the head's connection type: `KeepAlive` maps to
`KeepAlive` exactly when the `KEEPALIVE_ENABLED` flag is set (which
`ClientCodec::new` sets exactly when the config has keep-alive enabled) and to
`Close` otherwise; `Upgrade` maps to `Upgrade`; `Close` maps to `Close` — for
every head, length and config. -/
theorem claim_C1_encode_resolves_ctype {DEC PD ENC : Type}
    (c : ClientCodec DEC PD ENC) (hooks : EncoderHooks ENC)
    (head : RequestHead) (length : BodySize)
    (config : ServiceConfig) (dec : DEC) (enc : ENC) :
    ((c.encode hooks (Message.Item (head, length))).1.inner.ctype =
      match head.ctype with
      | ConnectionType.KeepAlive =>
        if c.inner.flags.keepAliveEnabled then ConnectionType.KeepAlive
        else ConnectionType.Close
      | ConnectionType.Upgrade => ConnectionType.Upgrade
      | ConnectionType.Close => ConnectionType.Close)
    ∧ (@ClientCodec.new DEC PD ENC config dec enc).inner.flags.keepAliveEnabled =
        config.keep_alive_enabled := by
  constructor
  · cases h : head.ctype <;>
      simp [ClientCodec.encode, h]
  · cases h : config.keep_alive_enabled <;>
      simp [ClientCodec.new, h, Flags.empty]

/-- Claim C10: `into_payload_codec` followed by `into_message_codec` is the
identity on the whole codec state, and `keepalive()` agrees across the
conversion. -/
theorem claim_C10_roundtrip_identity {DEC PD ENC : Type} (c : ClientCodec DEC PD ENC) :
    c.into_payload_codec.into_message_codec = c ∧
    c.into_payload_codec.keepalive = c.keepalive :=
  ⟨rfl, rfl⟩

/-- Claim C7: decoding a message head while a payload decoder is pending
panics (failed assertion), decoding a payload while no payload decoder is set
panics, and with a payload decoder set `ClientPayloadCodec::decode` always
returns normally (the `unwrap` cannot panic). -/
theorem claim_C7_assertions {DEC PD ENC : Type}
    (c : ClientCodec DEC PD ENC)
    (res : Except ParseError (Option (ResponseHead × PayloadType PD)))
    (p : ClientPayloadCodec DEC PD ENC)
    (step : PD → PD × Except PayloadError (Option PayloadItem)) :
    (∀ pl, c.inner.payload = some pl →
      c.decode res = Panics.panicked "Payload decoder is set") ∧
    (p.inner.payload = none →
      p.decode step = Panics.panicked "Payload decoder is not specified") ∧
    (∀ pl, p.inner.payload = some pl →
      ∃ r, p.decode step = Panics.ret r) := by
  refine ⟨fun pl hpl => ?_, fun hnone => ?_, fun pl hpl => ?_⟩
  · simp [ClientCodec.decode, hpl]
  · simp [ClientPayloadCodec.decode, hnone]
  · rcases hstep : step pl with ⟨pl2, out⟩
    rcases out with e | o
    · exact ⟨(Except.error e, ⟨{ p.inner with payload := some pl2 }⟩),
        by simp [ClientPayloadCodec.decode, hpl, hstep]⟩
    · rcases o with _ | item
      · exact ⟨(Except.ok none, ⟨{ p.inner with payload := some pl2 }⟩),
          by simp [ClientPayloadCodec.decode, hpl, hstep]⟩
      · rcases item with b | _
        · exact ⟨(Except.ok (some (some b)), ⟨{ p.inner with payload := some pl2 }⟩),
            by simp [ClientPayloadCodec.decode, hpl, hstep]⟩
        · exact ⟨(Except.ok (some none), ⟨{ p.inner with payload := none }⟩),
            by simp [ClientPayloadCodec.decode, hpl, hstep]⟩

/-- Sample codec state used by the witnesses: payload decoder absent. -/
def sampleInner : ClientCodecInner Unit Unit Unit :=
  (@ClientCodec.new Unit Unit Unit ⟨true⟩ () ()).inner

/-- Sample codec state used by the witnesses: payload decoder present. -/
def sampleInnerP : ClientCodecInner Unit Unit Unit :=
  { sampleInner with payload := some () }

/-- Sample payload-decoder step used by the witnesses: yields one chunk. -/
def sampleStep : Unit → Unit × Except PayloadError (Option PayloadItem) :=
  fun _ => ((), Except.ok (some (PayloadItem.Chunk [104, 105])))

/-- Witness for claim C7 at concrete codec states. -/
theorem claim_C7_assertions_witness :
    ClientCodec.decode ⟨sampleInnerP⟩ (Except.ok none) =
      Panics.panicked "Payload decoder is set" ∧
    ClientPayloadCodec.decode ⟨sampleInner⟩ sampleStep =
      Panics.panicked "Payload decoder is not specified" ∧
    ∃ r, ClientPayloadCodec.decode ⟨sampleInnerP⟩ sampleStep = Panics.ret r := by
  obtain ⟨h1, h2, h3⟩ :=
    claim_C7_assertions (⟨sampleInnerP⟩ : ClientCodec Unit Unit Unit) (Except.ok none)
      (⟨sampleInner⟩ : ClientPayloadCodec Unit Unit Unit) sampleStep
  obtain ⟨-, h2', h3'⟩ :=
    claim_C7_assertions (⟨sampleInnerP⟩ : ClientCodec Unit Unit Unit) (Except.ok none)
      (⟨sampleInnerP⟩ : ClientPayloadCodec Unit Unit Unit) sampleStep
  exact ⟨h1 () rfl, h2 rfl, h3' () rfl⟩

/-- Claim C4: `ClientPayloadCodec::decode` maps the stored payload decoder's
outcomes exactly: a chunk becomes `Ok(Some(Some(bytes)))` with the stepped
decoder retained, `Eof` becomes `Ok(Some(None))` with the decoder dropped,
and no-progress becomes `Ok(None)` with the stepped decoder retained. -/
theorem claim_C4_payload_decode_maps_outcomes {DEC PD ENC : Type}
    (c : ClientPayloadCodec DEC PD ENC) (pl : PD)
    (step : PD → PD × Except PayloadError (Option PayloadItem))
    (hpl : c.inner.payload = some pl) :
    (∀ pl2 b, step pl = (pl2, Except.ok (some (PayloadItem.Chunk b))) →
      c.decode step = Panics.ret (Except.ok (some (some b)),
        ⟨{ c.inner with payload := some pl2 }⟩)) ∧
    (∀ pl2, step pl = (pl2, Except.ok (some PayloadItem.Eof)) →
      c.decode step = Panics.ret (Except.ok (some none),
        ⟨{ c.inner with payload := none }⟩)) ∧
    (∀ pl2, step pl = (pl2, Except.ok none) →
      c.decode step = Panics.ret (Except.ok none,
        ⟨{ c.inner with payload := some pl2 }⟩)) := by
  refine ⟨fun pl2 b hstep => ?_, fun pl2 hstep => ?_, fun pl2 hstep => ?_⟩ <;>
    simp [ClientPayloadCodec.decode, hpl, hstep]

/-- Witness for claim C4: a one-chunk step on a concrete codec. -/
theorem claim_C4_witness :
    ClientPayloadCodec.decode ⟨sampleInnerP⟩ sampleStep =
      Panics.ret (Except.ok (some (some [104, 105])),
        ⟨{ sampleInnerP with payload := some () }⟩) :=
  (claim_C4_payload_decode_maps_outcomes
      (⟨sampleInnerP⟩ : ClientPayloadCodec Unit Unit Unit) () sampleStep rfl).1
    () [104, 105] rfl

/-- The state update performed by `ClientCodec::decode` when the inner
message decoder yields a head: first the connection-type rule, then the
payload-installation rule gated by the `HEAD` flag. -/
def decodeUpdate {DEC PD ENC : Type} (i : ClientCodecInner DEC PD ENC)
    (req : ResponseHead) (payload : PayloadType PD) : ClientCodecInner DEC PD ENC :=
  let i1 :=
    match req.ctype with
    | some ctype =>
      { i with ctype := if ctype = ConnectionType.KeepAlive then i.ctype else ctype }
    | none => i
  if i1.flags.head = false then
    match payload with
    | PayloadType.None => { i1 with payload := none }
    | PayloadType.Payload pl => { i1 with payload := some pl }
    | PayloadType.Stream pl =>
      { i1 with payload := some pl, flags := { i1.flags with stream := true } }
  else
    { i1 with payload := none }

lemma ClientCodec.decode_ok_some {DEC PD ENC : Type} (c : ClientCodec DEC PD ENC)
    (req : ResponseHead) (pt : PayloadType PD) (hpl : c.inner.payload = none) :
    c.decode (Except.ok (some (req, pt))) =
      Panics.ret (Except.ok (some req), ⟨decodeUpdate c.inner req pt⟩) := by
  simp [ClientCodec.decode, decodeUpdate, hpl]

lemma decodeUpdate_payload {DEC PD ENC : Type} (i : ClientCodecInner DEC PD ENC)
    (req : ResponseHead) (pt : PayloadType PD) :
    (decodeUpdate i req pt).payload =
      if i.flags.head then none
      else
        match pt with
        | PayloadType.None => none
        | PayloadType.Payload pl => some pl
        | PayloadType.Stream pl => some pl := by
  rcases hct : req.ctype with _ | ct <;> rcases pt with _ | pl | pl <;>
    rcases hh : i.flags.head <;>
    simp [decodeUpdate, hct, hh]

lemma decodeUpdate_keepAliveEnabled {DEC PD ENC : Type} (i : ClientCodecInner DEC PD ENC)
    (req : ResponseHead) (pt : PayloadType PD) :
    (decodeUpdate i req pt).flags.keepAliveEnabled = i.flags.keepAliveEnabled := by
  rcases hct : req.ctype with _ | ct <;> rcases pt with _ | pl | pl <;>
    rcases hh : i.flags.head <;>
    simp [decodeUpdate, hct, hh]

lemma decodeUpdate_ctype {DEC PD ENC : Type} (i : ClientCodecInner DEC PD ENC)
    (req : ResponseHead) (pt : PayloadType PD) :
    (decodeUpdate i req pt).ctype = i.ctype ∨
      ((decodeUpdate i req pt).ctype ≠ ConnectionType.KeepAlive) := by
  rcases hct : req.ctype with _ | ct
  · left
    rcases pt with _ | pl | pl <;> rcases hh : i.flags.head <;>
      simp [decodeUpdate, hct, hh]
  · by_cases hka : ct = ConnectionType.KeepAlive
    · left
      rcases pt with _ | pl | pl <;> rcases hh : i.flags.head <;>
        simp [decodeUpdate, hct, hka, hh]
    · right
      rcases pt with _ | pl | pl <;> rcases hh : i.flags.head <;>
        simp [decodeUpdate, hct, hka, hh]

lemma ClientCodec.encode_inner {DEC PD ENC : Type} (c : ClientCodec DEC PD ENC)
    (hooks : EncoderHooks ENC) (head : RequestHead) (length : BodySize) :
    ∃ e2, ((c.encode hooks (Message.Item (head, length))).1).inner =
      { c.inner with
          version := head.version,
          flags := { c.inner.flags with head := decide (head.method = Method.HEAD) },
          ctype :=
            match head.ctype with
            | ConnectionType.KeepAlive =>
              if c.inner.flags.keepAliveEnabled then ConnectionType.KeepAlive
              else ConnectionType.Close
            | ConnectionType.Upgrade => ConnectionType.Upgrade
            | ConnectionType.Close => ConnectionType.Close,
          encoder := e2 } := by
  simp only [ClientCodec.encode]
  exact ⟨_, rfl⟩

/-- Claim C3: after encoding a request head, the connection-scoped `HEAD`
flag records whether the method was `HEAD`; decoding the paired response then
discards the derived `PayloadType` (stores no payload decoder) when the flag
is set, and installs it otherwise. -/
theorem claim_C3_head_suppresses_payload {DEC PD ENC : Type}
    (c : ClientCodec DEC PD ENC) (hooks : EncoderHooks ENC)
    (head : RequestHead) (length : BodySize)
    (resp : ResponseHead) (pt : PayloadType PD)
    (hpl : c.inner.payload = none) :
    (head.method = Method.HEAD →
      (c.encode hooks (Message.Item (head, length))).1.inner.flags.head = true ∧
      ∃ c2, (c.encode hooks (Message.Item (head, length))).1.decode
              (Except.ok (some (resp, pt))) =
            Panics.ret (Except.ok (some resp), c2) ∧
            c2.inner.payload = none) ∧
    (head.method ≠ Method.HEAD →
      (c.encode hooks (Message.Item (head, length))).1.inner.flags.head = false ∧
      ∃ c2, (c.encode hooks (Message.Item (head, length))).1.decode
              (Except.ok (some (resp, pt))) =
            Panics.ret (Except.ok (some resp), c2) ∧
            c2.inner.payload =
              (match pt with
               | PayloadType.None => none
               | PayloadType.Payload pl => some pl
               | PayloadType.Stream pl => some pl)) := by
  obtain ⟨e2, henc⟩ := c.encode_inner hooks head length
  have hpl1 : (c.encode hooks (Message.Item (head, length))).1.inner.payload = none := by
    rw [henc]; exact hpl
  have hdec := (c.encode hooks (Message.Item (head, length))).1.decode_ok_some resp pt hpl1
  have hhd : (c.encode hooks (Message.Item (head, length))).1.inner.flags.head =
      decide (head.method = Method.HEAD) := by
    rw [henc]
  constructor
  · intro hm
    refine ⟨by simp [hhd, hm], ⟨_, hdec, ?_⟩⟩
    rw [decodeUpdate_payload, hhd]
    simp [hm]
  · intro hm
    refine ⟨by simp [hhd, hm], ⟨_, hdec, ?_⟩⟩
    rw [decodeUpdate_payload, hhd]
    simp [hm]

/-- Trivial encoder hooks used by the witnesses. -/
def sampleHooks : EncoderHooks Unit :=
  { encHead := fun e _ _ _ _ _ => (e, Except.ok ())
    encChunk := fun e _ => (e, Except.ok ())
    encEof := fun e => (e, Except.ok ()) }

/-- Witness for claim C3: a concrete HEAD request whose paired response
declares a payload, which the codec discards. -/
theorem claim_C3_witness :
    ((⟨sampleInner⟩ : ClientCodec Unit Unit Unit).encode sampleHooks
        (Message.Item (⟨Version.HTTP11, Method.HEAD, ConnectionType.Close⟩,
          BodySize.Sized 4))).1.inner.flags.head = true ∧
    ∃ c2, ((⟨sampleInner⟩ : ClientCodec Unit Unit Unit).encode sampleHooks
        (Message.Item (⟨Version.HTTP11, Method.HEAD, ConnectionType.Close⟩,
          BodySize.Sized 4))).1.decode
        (Except.ok (some (⟨200, Version.HTTP11, none⟩, PayloadType.Payload ()))) =
      Panics.ret (Except.ok (some ⟨200, Version.HTTP11, none⟩), c2) ∧
      c2.inner.payload = none :=
  (claim_C3_head_suppresses_payload (⟨sampleInner⟩ : ClientCodec Unit Unit Unit)
      sampleHooks ⟨Version.HTTP11, Method.HEAD, ConnectionType.Close⟩
      (BodySize.Sized 4) ⟨200, Version.HTTP11, none⟩ (PayloadType.Payload ())
      rfl).1 rfl

/-- One observable operation on the shared codec state: an encode on the
message codec, a successfully returning message decode, or a successfully
returning payload decode (conversions between the two codec views carry the
state over unchanged). -/
inductive ClientStep {DEC PD ENC : Type} :
    ClientCodecInner DEC PD ENC → ClientCodecInner DEC PD ENC → Prop where
  | encode (c : ClientCodec DEC PD ENC) (hooks : EncoderHooks ENC)
      (item : Message (RequestHead × BodySize)) :
      ClientStep c.inner ((c.encode hooks item).1).inner
  | decodeMsg (c : ClientCodec DEC PD ENC)
      (res : Except ParseError (Option (ResponseHead × PayloadType PD)))
      (out : Except ParseError (Option ResponseHead)) (c2 : ClientCodec DEC PD ENC) :
      c.decode res = Panics.ret (out, c2) → ClientStep c.inner c2.inner
  | decodePayload (c : ClientPayloadCodec DEC PD ENC)
      (step : PD → PD × Except PayloadError (Option PayloadItem))
      (out : Except PayloadError (Option (Option Bytes)))
      (c2 : ClientPayloadCodec DEC PD ENC) :
      c.decode step = Panics.ret (out, c2) → ClientStep c.inner c2.inner

lemma ClientPayloadCodec.decode_ret_inner {DEC PD ENC : Type}
    {c : ClientPayloadCodec DEC PD ENC}
    {step : PD → PD × Except PayloadError (Option PayloadItem)}
    {out : Except PayloadError (Option (Option Bytes))}
    {c2 : ClientPayloadCodec DEC PD ENC}
    (h : c.decode step = Panics.ret (out, c2)) :
    c2.inner.ctype = c.inner.ctype ∧ c2.inner.flags = c.inner.flags := by
  rcases hpl : c.inner.payload with _ | pl
  · simp [ClientPayloadCodec.decode, hpl] at h
  · rcases hstep : step pl with ⟨pl2, o⟩
    rcases o with e | o
    · simp [ClientPayloadCodec.decode, hpl, hstep] at h
      rw [← h.2]
      exact ⟨rfl, rfl⟩
    · rcases o with _ | item
      · simp [ClientPayloadCodec.decode, hpl, hstep] at h
        rw [← h.2]
        exact ⟨rfl, rfl⟩
      · rcases item with b | _
        · simp [ClientPayloadCodec.decode, hpl, hstep] at h
          rw [← h.2]
          exact ⟨rfl, rfl⟩
        · simp [ClientPayloadCodec.decode, hpl, hstep] at h
          rw [← h.2]
          exact ⟨rfl, rfl⟩

lemma clientStep_keepalive {DEC PD ENC : Type}
    {i j : ClientCodecInner DEC PD ENC} (h : ClientStep i j) :
    j.flags.keepAliveEnabled = i.flags.keepAliveEnabled ∧
    (j.ctype = ConnectionType.KeepAlive →
      i.ctype = ConnectionType.KeepAlive ∨ i.flags.keepAliveEnabled = true) := by
  cases h with
  | encode c hooks item =>
    rcases item with ⟨head, length⟩ | ch
    · obtain ⟨e2, henc⟩ := c.encode_inner hooks head length
      rw [henc]
      refine ⟨rfl, fun hct => ?_⟩
      rcases hc : head.ctype <;> simp only [hc] at hct
      · exact absurd hct (by simp)
      · right
        by_cases hka : c.inner.flags.keepAliveEnabled = true
        · exact hka
        · simp [hka] at hct
      · exact absurd hct (by simp)
    · rcases ch with _ | bytes <;>
        exact ⟨rfl, fun hct => Or.inl hct⟩
  | decodeMsg c res out c2 hdec =>
    by_cases hg : c.inner.payload.isSome
    · simp [ClientCodec.decode, hg] at hdec
    · have hpl : c.inner.payload = none := Option.not_isSome_iff_eq_none.mp hg
      rcases res with e | o
      · simp [ClientCodec.decode, hg] at hdec
        rw [← hdec.2]
        exact ⟨rfl, fun hct => Or.inl hct⟩
      · rcases o with _ | ⟨req, pt⟩
        · simp [ClientCodec.decode, hg] at hdec
          rw [← hdec.2]
          exact ⟨rfl, fun hct => Or.inl hct⟩
        · rw [c.decode_ok_some req pt hpl] at hdec
          have hc2 : c2 = ⟨decodeUpdate c.inner req pt⟩ := by
            cases hdec; rfl
          subst hc2
          refine ⟨decodeUpdate_keepAliveEnabled c.inner req pt, fun hct => ?_⟩
          rcases decodeUpdate_ctype c.inner req pt with heq | hne
          · exact Or.inl (heq ▸ hct)
          · exact absurd hct hne
  | decodePayload c step out c2 hdec =>
    obtain ⟨h1, h2⟩ := ClientPayloadCodec.decode_ret_inner hdec
    rw [h1, h2]
    exact ⟨rfl, fun hct => Or.inl hct⟩

/-- Claim C2: on a codec constructed with keep-alive disabled, the connection
type is never `KeepAlive`, so `keepalive()` is false on every state reachable
by any sequence of encode and decode operations (on either codec view). -/
theorem claim_C2_keepalive_disabled_invariant {DEC PD ENC : Type}
    (config : ServiceConfig) (dec : DEC) (enc : ENC)
    (hka : config.keep_alive_enabled = false)
    (i : ClientCodecInner DEC PD ENC)
    (h : Relation.ReflTransGen ClientStep
          (@ClientCodec.new DEC PD ENC config dec enc).inner i) :
    ClientCodec.keepalive ⟨i⟩ = false ∧ ClientPayloadCodec.keepalive ⟨i⟩ = false := by
  have hinv : i.flags.keepAliveEnabled = false ∧ i.ctype ≠ ConnectionType.KeepAlive := by
    induction h with
    | refl =>
      constructor
      · simp [ClientCodec.new, hka, Flags.empty]
      · simp [ClientCodec.new, hka]
    | tail hsteps hstep ih =>
      obtain ⟨hkaE, hct⟩ := clientStep_keepalive hstep
      refine ⟨hkaE.trans ih.1, fun hc => ?_⟩
      rcases hct hc with h1 | h2
      · exact ih.2 h1
      · rw [ih.1] at h2
        exact Bool.false_ne_true h2
  constructor
  · simp [ClientCodec.keepalive, hinv.2]
  · simp [ClientPayloadCodec.keepalive, hinv.2]

/-- Witness for claim C2: the freshly constructed codec with keep-alive
disabled reports `keepalive() = false`. -/
theorem claim_C2_witness :
    ClientCodec.keepalive ⟨(@ClientCodec.new Unit Unit Unit ⟨false⟩ () ()).inner⟩ = false ∧
    ClientPayloadCodec.keepalive
      ⟨(@ClientCodec.new Unit Unit Unit ⟨false⟩ () ()).inner⟩ = false :=
  claim_C2_keepalive_disabled_invariant ⟨false⟩ () () rfl _ Relation.ReflTransGen.refl

/-- Maximum value of Rust's `usize` (64-bit platforms). -/
def USIZE_MAX : Nat := 2 ^ 64 - 1

/-- `str::parse::<usize>`: an optional leading `+`, then at least one ASCII
digit, and the value must fit in `usize` (a larger value is a parse error,
`PosOverflow`). -/
def parseUsize (s : String) : Option Nat :=
  let cs :=
    match s.toList with
    | '+' :: rest => rest
    | cs => cs
  if cs = [] then none
  else if cs.all Char.isDigit then
    let n := cs.foldl (fun acc c => acc * 10 + (c.toNat - 48)) 0
    if n ≤ USIZE_MAX then some n else none
  else none

/-- `HttpRequest`, restricted to the one header the embedded code reads:
`headers().get(CONTENT_LENGTH)`. The header value is kept as a string; a raw
value on which `to_str` fails contains a byte that is not an ASCII digit, so
it produces the same `UnknownLength` outcome as any other unparsable string. -/
structure HttpRequest where
  contentLength : Option String
deriving DecidableEq, Repr

/-- `DEFAULT_CONFIG_LIMIT` from `src/types/payload.rs`: 262,144 bytes. -/
def DEFAULT_CONFIG_LIMIT : Nat := 262144

instance {e a : Type} [DecidableEq e] [DecidableEq a] : DecidableEq (Except e a) :=
  fun x y =>
    match x, y with
    | Except.error u, Except.error v =>
      if h : u = v then isTrue (by rw [h]) else isFalse (by intro hc; cases hc; exact h rfl)
    | Except.ok u, Except.ok v =>
      if h : u = v then isTrue (by rw [h]) else isFalse (by intro hc; cases hc; exact h rfl)
    | Except.error _, Except.ok _ => isFalse (by intro hc; cases hc)
    | Except.ok _, Except.error _ => isFalse (by intro hc; cases hc)

/-- `HttpMessageBody` from `src/types/payload.rs`. The payload stream is the
finite list of chunk results the underlying source will yield, in order. -/
structure HttpMessageBody where
  limit : Nat
  length : Option Nat
  stream : List (Except PayloadError Bytes)
  buf : Bytes
  err : Option PayloadError
deriving DecidableEq, Repr

/-- `HttpMessageBody::new`. -/
def HttpMessageBody.new (req : HttpRequest)
    (payload : List (Except PayloadError Bytes)) : HttpMessageBody :=
  let le : Option Nat × Option PayloadError :=
    match req.contentLength with
    | some s =>
      match parseUsize s with
      | some l =>
        if l > DEFAULT_CONFIG_LIMIT then (none, some PayloadError.Overflow)
        else (some l, none)
      | none => (none, some PayloadError.UnknownLength)
    | none => (none, none)
  { limit := DEFAULT_CONFIG_LIMIT
    length := le.1
    stream := payload
    buf := []
    err := le.2 }

/-- `HttpMessageBody::limit` (named `limit'` because the struct field is
already named `limit`). -/
def HttpMessageBody.limit' (b : HttpMessageBody) (limit : Nat) : HttpMessageBody :=
  let b :=
    match b.length with
    | some l => if l > limit then { b with err := some PayloadError.Overflow } else b
    | none => b
  { b with limit := limit }

/-- The read loop of `<HttpMessageBody as Future>::poll`: drain the stream,
checking the limit before appending each chunk. Returns the result together
with the final buffer contents and the unread remainder of the stream; on
successful completion `buf.split().freeze()` empties the buffer. -/
def bodyLoop (limit : Nat) (buf : Bytes) :
    List (Except PayloadError Bytes) →
      Except PayloadError Bytes × Bytes × List (Except PayloadError Bytes)
  | [] => (Except.ok buf, [], [])
  | Except.error e :: rest => (Except.error e, buf, rest)
  | Except.ok chunk :: rest =>
    if buf.length + chunk.length > limit then
      (Except.error PayloadError.Overflow, buf, rest)
    else
      bodyLoop limit (buf ++ chunk) rest

/-- `<HttpMessageBody as Future>::poll`, driven to its `Ready` outcome (the
stream is a finite list, so no intermediate `Pending` arises). A stored error
is returned first, taking `err`, before any chunk is read. -/
def HttpMessageBody.poll (b : HttpMessageBody) :
    Except PayloadError Bytes × HttpMessageBody :=
  match b.err with
  | some e => (Except.error e, { b with err := none })
  | none =>
    let (res, buf2, rest) := bodyLoop b.limit b.buf b.stream
    (res, { b with buf := buf2, stream := rest })

lemma bodyLoop_all_ok (limit : Nat) (chunks : List Bytes) :
    ∀ buf : Bytes, buf.length ≤ limit →
      (bodyLoop limit buf (chunks.map Except.ok)).1 =
        if buf.length + chunks.flatten.length ≤ limit then Except.ok (buf ++ chunks.flatten)
        else Except.error PayloadError.Overflow := by
  induction chunks with
  | nil =>
    intro buf h
    simp [bodyLoop, h]
  | cons c rest ih =>
    intro buf h
    by_cases hc : buf.length + c.length > limit
    · have hr : ¬ (buf.length + ((c :: rest).flatten).length ≤ limit) := by
        simp only [List.flatten_cons, List.length_append]
        omega
      rw [if_neg hr]
      simp [bodyLoop, hc]
    · have hc' : (buf ++ c).length ≤ limit := by
        simp only [List.length_append]
        omega
      have hrec := ih (buf ++ c) hc'
      simp only [List.map_cons, bodyLoop, if_neg hc]
      rw [hrec]
      simp only [List.flatten_cons, List.length_append, List.append_assoc]
      have harith : buf.length + c.length + rest.flatten.length =
          buf.length + (c.length + rest.flatten.length) := by omega
      rw [harith]

/-- Claim C6: for every finite stream of successful chunks, the body future
resolves to the in-order concatenation of the chunks when the accumulated
length stays within the limit, and to `Err(Overflow)` otherwise (the check
`buf.len() + chunk.len() > limit` fires on the first offending chunk). -/
theorem claim_C6_body_concat_or_overflow (chunks : List Bytes) (l : Nat) :
    (((HttpMessageBody.new ⟨none⟩ (chunks.map Except.ok)).limit' l)).poll.1 =
      if chunks.flatten.length ≤ l then Except.ok chunks.flatten
      else Except.error PayloadError.Overflow := by
  have hb : (HttpMessageBody.new ⟨none⟩ (chunks.map Except.ok)).limit' l =
      { limit := l, length := none, stream := chunks.map Except.ok,
        buf := [], err := none } := rfl
  rw [hb]
  rcases hloop : bodyLoop l [] (chunks.map Except.ok) with ⟨res, buf2, rest⟩
  have h1 := bodyLoop_all_ok l chunks [] (Nat.zero_le l)
  rw [hloop] at h1
  simp only [HttpMessageBody.poll, hloop]
  simpa using h1

/-- Claim C5 (amended): a `Content-Length` that parses as a `usize` and
exceeds the configured limit makes the body future resolve to
`Err(Overflow)` on its first poll, before any chunk is read from the stream;
a `Content-Length` that does not parse as a `usize` (unparsable text, or a
value outside the `usize` range) makes it resolve to `Err(UnknownLength)`,
likewise before any read — for every request and payload stream. -/
theorem claim_C5_content_length_errors (s : String) (l : Nat)
    (pl : List (Except PayloadError Bytes)) :
    (∀ n, parseUsize s = some n → n > l →
      ((HttpMessageBody.new ⟨some s⟩ pl).limit' l).poll =
        (Except.error PayloadError.Overflow,
         { (HttpMessageBody.new ⟨some s⟩ pl).limit' l with err := none })) ∧
    (parseUsize s = none →
      ((HttpMessageBody.new ⟨some s⟩ pl).limit' l).poll =
        (Except.error PayloadError.UnknownLength,
         { (HttpMessageBody.new ⟨some s⟩ pl).limit' l with err := none })) := by
  constructor
  · intro n hn hgt
    by_cases hd : n > DEFAULT_CONFIG_LIMIT
    · simp [HttpMessageBody.new, HttpMessageBody.limit', HttpMessageBody.poll, hn, hd]
    · simp [HttpMessageBody.new, HttpMessageBody.limit', HttpMessageBody.poll, hn, hd, hgt]
  · intro hn
    simp [HttpMessageBody.new, HttpMessageBody.limit', HttpMessageBody.poll, hn]

/-- Counterexample for claim C5 as stated: the request's `Content-Length`
value `18446744073709551616` (= 2^64) is a non-negative integer exceeding the
configured limit 262144, yet the first poll resolves to
`Err(UnknownLength)` — `parse::<usize>` overflows — not `Err(Overflow)`. -/
theorem claim_C5_counterexample :
    ((HttpMessageBody.new ⟨some "18446744073709551616"⟩ []).limit' 262144).poll.1 =
      Except.error PayloadError.UnknownLength ∧
    ((HttpMessageBody.new ⟨some "18446744073709551616"⟩ []).limit' 262144).poll.1 ≠
      Except.error PayloadError.Overflow := by
  constructor <;> decide

/-- Witness for claim C5: an in-range `Content-Length` of 300000 against
limit 100 overflows; the text `abc` is unparsable. -/
theorem claim_C5_witness :
    ((HttpMessageBody.new ⟨some "300000"⟩ []).limit' 100).poll =
      (Except.error PayloadError.Overflow,
       { (HttpMessageBody.new ⟨some "300000"⟩ []).limit' 100 with err := none }) ∧
    ((HttpMessageBody.new ⟨some "abc"⟩ []).limit' 100).poll =
      (Except.error PayloadError.UnknownLength,
       { (HttpMessageBody.new ⟨some "abc"⟩ []).limit' 100 with err := none }) :=
  ⟨(claim_C5_content_length_errors "300000" 100 []).1 300000 (by decide) (by decide),
   (claim_C5_content_length_errors "abc" 100 []).2 (by decide)⟩

/-- `OneRequestService::call` from `h1/service.rs`. The connection's framing
layer (`Framed` + server `Codec`) is outside the embedded sources, so the
stream of `framed.next()` outcomes is the argument: list end models the byte
stream ending, and the `unreachable!` arm is modelled as a panic. On success
the request is returned together with the remaining framed stream. -/
def OneRequestService.call {R : Type} (stream : List (Except ParseError (Message R))) :
    Panics (Except ParseError (R × List (Except ParseError (Message R)))) :=
  match stream with
  | [] => Panics.ret (Except.error ParseError.Incomplete)
  | Except.ok (Message.Item req) :: rest => Panics.ret (Except.ok (req, rest))
  | Except.ok (Message.Chunk _) :: _ => Panics.panicked "Something is wrong"
  | Except.error e :: _ => Panics.ret (Except.error e)

/-- Claim C8: `OneRequestService::call` succeeds exactly when the first
decoded message is a head (`Message::Item`); a parse error is propagated
unchanged; end of the byte stream before a head yields
`Err(ParseError::Incomplete)`. -/
theorem claim_C8_one_request_call (R : Type) :
    (∀ (req : R) (rest : List (Except ParseError (Message R))),
      OneRequestService.call (Except.ok (Message.Item req) :: rest) =
        Panics.ret (Except.ok (req, rest))) ∧
    (∀ (e : ParseError) (rest : List (Except ParseError (Message R))),
      OneRequestService.call (Except.error e :: rest) =
        Panics.ret (Except.error e)) ∧
    (OneRequestService.call ([] : List (Except ParseError (Message R))) =
      Panics.ret (Except.error ParseError.Incomplete)) ∧
    (∀ (stream : List (Except ParseError (Message R))) (req : R) rest,
      OneRequestService.call stream = Panics.ret (Except.ok (req, rest)) →
        stream = Except.ok (Message.Item req) :: rest) := by
  refine ⟨fun req rest => rfl, fun e rest => rfl, rfl, fun stream req rest h => ?_⟩
  rcases stream with _ | ⟨first, tl⟩
  · simp [OneRequestService.call] at h
  · rcases first with e | m
    · simp [OneRequestService.call] at h
    · rcases m with r | ch
      · simp [OneRequestService.call] at h
        rw [h.1, h.2]
      · simp [OneRequestService.call] at h

/-- Witness for claim C8 at a concrete stream. -/
theorem claim_C8_witness :
    OneRequestService.call [Except.ok (Message.Item (42 : Nat))] =
      Panics.ret (Except.ok (42, ([] : List (Except ParseError (Message Nat))))) ∧
    OneRequestService.call ([] : List (Except ParseError (Message Nat))) =
      Panics.ret (Except.error ParseError.Incomplete) :=
  ⟨(claim_C8_one_request_call Nat).1 42 [], (claim_C8_one_request_call Nat).2.2.1⟩

/-- Modelled from the spec: `dev::Payload` — the request's body-chunk source,
"a lazy, single-consumption, forward-only sequence of byte chunks" — with an
empty variant; the type and its `take` method are not under the embedded
sources. `S` is the state of a non-empty source. -/
inductive DevPayload (S : Type) where
  | None
  | Stream (s : S)
deriving DecidableEq, Repr

/-- Modelled from the spec: `dev::Payload::take` moves the source out of the
slot, returning it and leaving an empty payload in place. -/
def DevPayload.take {S : Type} (p : DevPayload S) : DevPayload S × DevPayload S :=
  (p, DevPayload.None)

/-- `pub struct Payload(pub crate::dev::Payload)` from `src/types/payload.rs`. -/
structure Payload (S : Type) where
  payload : DevPayload S
deriving DecidableEq, Repr

/-- `<Payload as FromRequest>::from_request`: `ready(Ok(Payload(payload.take())))`.
The future is `Ready`, so the result is immediate; the request is only passed
by shared reference and ignored. Returns the extractor result together with
the state the payload slot is left in. -/
def Payload.from_request {S : Type} (_req : HttpRequest) (payload : DevPayload S) :
    Except Unit (Payload S) × DevPayload S :=
  let (taken, left) := payload.take
  (Except.ok { payload := taken }, left)

/-- Claim C9: `Payload::from_request` always resolves to `Ok`, moves the body
source out of the slot leaving it empty, so a second extraction observes an
empty payload; the result never depends on the request, which is untouched. -/
theorem claim_C9_payload_single_consumption (S : Type) (req req2 : HttpRequest)
    (p : DevPayload S) :
    Payload.from_request req p = (Except.ok { payload := p }, DevPayload.None) ∧
    Payload.from_request req2 (Payload.from_request req p).2 =
      (Except.ok { payload := DevPayload.None }, DevPayload.None) :=
  ⟨rfl, rfl⟩

end Actix
